import Mathlib

/-!
Verification development for the AgriPricePulse market-data module
(src/data/marketData.ts).

The module is shallowly embedded over the real numbers.  JavaScript
numbers are idealised as real numbers; the three non-finite results a
division can produce (NaN, Infinity, -Infinity) are made explicit in the
codomain type JSNum wherever the original code can produce them
(calculatePriceChange, calculateMarketEfficiency).  Math.random() draws
are modelled as an explicit stream of reals, two draws per call of the
fluctuation routine, consumed in the source's call order.
-/

noncomputable section

/-- Result of a JavaScript numeric computation: a finite value, NaN, or a
signed infinity. -/
inductive JSNum where
  | val (x : ℝ)
  | nan
  | posInf
  | negInf

/-- JavaScript division a / b.  For b = 0 the IEEE rules give NaN when
a = 0 and a signed infinity otherwise; for b ≠ 0 it is real division. -/
def jsDiv (a b : ℝ) : JSNum :=
  if b = 0 then
    if a = 0 then JSNum.nan else if 0 < a then JSNum.posInf else JSNum.negInf
  else JSNum.val (a / b)

/-- JavaScript Math.abs extended to NaN and the infinities. -/
def jsAbs : JSNum → JSNum
  | JSNum.val x => JSNum.val |x|
  | JSNum.nan => JSNum.nan
  | JSNum.posInf => JSNum.posInf
  | JSNum.negInf => JSNum.posInf

/-- JavaScript Math.round on a finite argument: floor (x + 1/2)
(halves round toward positive infinity, also for negative x). -/
def jsRound (x : ℝ) : ℝ := (⌊x + 1/2⌋ : ℤ)

/-- Prices of one commodity in the two tracked cities (the inner objects
of the BASE_PRICES constant). -/
structure CityPrices where
  nairobi : ℝ
  mombasa : ℝ

/-- The two-commodity shape of the BASE_PRICES constant. -/
structure CommodityTable where
  maize : CityPrices
  beans : CityPrices

/-- Base prices for commodities (KES per 90kg bag), from the source's
BASE_PRICES constant. -/
def BASE_PRICES : CommodityTable :=
  { maize := { nairobi := 4500, mombasa := 4200 }
    beans := { nairobi := 8500, mombasa := 8200 } }

/-- The per-commodity shape of the VOLATILITY constant. -/
structure VolatilityTable where
  maize : ℝ
  beans : ℝ

/-- Market volatility factors, from the source's VOLATILITY constant. -/
def VOLATILITY : VolatilityTable := { maize := 0.15, beans := 0.20 }

/-- generatePriceFluctuation(basePrice, volatility).  The two internal
Math.random() draws are passed explicitly as u1 and u2 (in that call
order).  Box-Muller followed by scaling and the 50%-of-base floor. -/
def generatePriceFluctuation (basePrice volatility u1 u2 : ℝ) : ℝ :=
  let normalRandom := Real.sqrt (-2 * Real.log u1) * Real.cos (2 * Real.pi * u2)
  let fluctuation := normalRandom * volatility * basePrice
  max (basePrice + fluctuation) (basePrice * 0.5)

/-- calculatePriceChange(currentPrice, basePrice):
Math.round(((current - base) / base) * 100 * 10) / 10.  When basePrice is
zero the JavaScript division produces a signed infinity (or NaN when the
numerator is also zero), which the subsequent multiplication, rounding
and division preserve; that case is made explicit here. -/
def calculatePriceChange (currentPrice basePrice : ℝ) : JSNum :=
  if basePrice = 0 then
    if 0 < currentPrice then JSNum.posInf
    else if currentPrice < 0 then JSNum.negInf
    else JSNum.nan
  else JSNum.val (jsRound (((currentPrice - basePrice) / basePrice) * 100 * 10) / 10)

/-- The City enum of the types module (only the two members used by the
data module). -/
inductive City where
  | nairobi
  | mombasa

/-- The Commodity enum of the types module. -/
inductive Commodity where
  | maize
  | beans

/-- One record of the snapshot generator, shaped after the MarketData
records literally constructed in generateMarketData.  The timestamp is
abstracted to an integer clock value. -/
structure MarketData where
  city : City
  commodity : Commodity
  maizePrice : ℝ
  maizeChange : JSNum
  beansPrice : ℝ
  beansChange : JSNum
  lastUpdated : ℤ

/-- generateMarketData().  The stream s supplies the Math.random() draws
in source order: nairobi maize, mombasa maize, nairobi beans, mombasa
beans, two draws each. -/
def generateMarketData (s : ℕ → ℝ) (currentTime : ℤ) : List MarketData :=
  let nairobiMaizePrice := jsRound (generatePriceFluctuation BASE_PRICES.maize.nairobi VOLATILITY.maize (s 0) (s 1))
  let mombasaMaizePrice := jsRound (generatePriceFluctuation BASE_PRICES.maize.mombasa VOLATILITY.maize (s 2) (s 3))
  let nairobiBeansPrice := jsRound (generatePriceFluctuation BASE_PRICES.beans.nairobi VOLATILITY.beans (s 4) (s 5))
  let mombasaBeansPrice := jsRound (generatePriceFluctuation BASE_PRICES.beans.mombasa VOLATILITY.beans (s 6) (s 7))
  [ { city := City.nairobi
      commodity := Commodity.maize
      maizePrice := nairobiMaizePrice
      maizeChange := calculatePriceChange nairobiMaizePrice BASE_PRICES.maize.nairobi
      beansPrice := nairobiBeansPrice
      beansChange := calculatePriceChange nairobiBeansPrice BASE_PRICES.beans.nairobi
      lastUpdated := currentTime },
    { city := City.mombasa
      commodity := Commodity.beans
      maizePrice := mombasaMaizePrice
      maizeChange := calculatePriceChange mombasaMaizePrice BASE_PRICES.maize.mombasa
      beansPrice := mombasaBeansPrice
      beansChange := calculatePriceChange mombasaBeansPrice BASE_PRICES.beans.mombasa
      lastUpdated := currentTime } ]

/-- One point of the historical series, shaped after the PriceData
records pushed by generateHistoricalData.  The YYYY-MM-DD date string is
abstracted to a day number (days since an arbitrary epoch). -/
structure PriceData where
  date : ℤ
  nairobiMaize : ℝ
  nairobiBeans : ℝ
  mombasaMaize : ℝ
  mombasaBeans : ℝ

/-- The trend factor 1 + i * 0.001 of generateHistoricalData, where i is
the number of days before today (i = 29 oldest, i = 0 today). -/
def trendFactor (i : ℕ) : ℝ := 1 + (i : ℝ) * 0.001

/-- The seasonal factor 1 + sin((i / 30) * PI * 2) * 0.05 of
generateHistoricalData. -/
def seasonalFactor (i : ℕ) : ℝ := 1 + Real.sin (((i : ℝ) / 30) * Real.pi * 2) * 0.05

/-- The iteration body of generateHistoricalData's loop, for loop
counter i = 29 - k (k = 0 is the first, oldest point).  The stream s
supplies the eight Math.random() draws of the k-th iteration at indices
8k..8k+7, in source order: nairobi maize, nairobi beans, mombasa maize,
mombasa beans, two draws each. -/
def historicalPoint (s : ℕ → ℝ) (today : ℤ) (k : ℕ) : PriceData :=
  let i := 29 - k
  { date := today - (i : ℤ)
    nairobiMaize := jsRound (generatePriceFluctuation
      (BASE_PRICES.maize.nairobi * trendFactor i * seasonalFactor i) (VOLATILITY.maize * 0.5)
      (s (8 * k)) (s (8 * k + 1)))
    nairobiBeans := jsRound (generatePriceFluctuation
      (BASE_PRICES.beans.nairobi * trendFactor i * seasonalFactor i) (VOLATILITY.beans * 0.5)
      (s (8 * k + 2)) (s (8 * k + 3)))
    mombasaMaize := jsRound (generatePriceFluctuation
      (BASE_PRICES.maize.mombasa * trendFactor i * seasonalFactor i) (VOLATILITY.maize * 0.5)
      (s (8 * k + 4)) (s (8 * k + 5)))
    mombasaBeans := jsRound (generatePriceFluctuation
      (BASE_PRICES.beans.mombasa * trendFactor i * seasonalFactor i) (VOLATILITY.beans * 0.5)
      (s (8 * k + 6)) (s (8 * k + 7))) }

/-- generateHistoricalData(): the loop for i = 29 down to 0 pushes one
point per iteration; denotationally, point k of the result is the body
at i = 29 - k. -/
def generateHistoricalData (s : ℕ → ℝ) (today : ℤ) : List PriceData :=
  (List.range 30).map (historicalPoint s today)

/-- calculateMovingAverage(data, period). data.slice(-period) keeps the
last period elements, i.e. drops data.length - period from the front. -/
def calculateMovingAverage (data : List ℝ) (period : ℕ) : ℝ :=
  if data.length < period then data.sum / data.length
  else (data.drop (data.length - period)).sum / period

/-- calculateVolatility(prices): population standard deviation with the
fewer-than-two-elements guard. -/
def calculateVolatility (prices : List ℝ) : ℝ :=
  if prices.length < 2 then 0
  else
    let mean := prices.sum / (prices.length : ℝ)
    let squaredDifferences := prices.map (fun price => (price - mean) ^ 2)
    let variance := squaredDifferences.sum / (prices.length : ℝ)
    Real.sqrt variance

/-- calculateMarketEfficiency(prices1, prices2).  The final expression
Math.abs(numerator / Math.sqrt(denominator1 * denominator2)) is embedded
through jsDiv/jsAbs so that the indeterminate division arising when
Math.sqrt(denominator1 * denominator2) is zero is represented
explicitly rather than collapsed to a junk real value. -/
def calculateMarketEfficiency (prices1 prices2 : List ℝ) : JSNum :=
  if prices1.length ≠ prices2.length ∨ prices1.length < 2 then JSNum.val 0
  else
    let n : ℝ := prices1.length
    let mean1 := prices1.sum / n
    let mean2 := prices2.sum / n
    let numerator := (List.zipWith (fun a b => (a - mean1) * (b - mean2)) prices1 prices2).sum
    let denominator1 := (prices1.map (fun a => (a - mean1) * (a - mean1))).sum
    let denominator2 := (prices2.map (fun b => (b - mean2) * (b - mean2))).sum
    jsAbs (jsDiv numerator (Real.sqrt (denominator1 * denominator2)))

/-! Spec-side definitions, written from the specification's wording, for
the refinement statements. -/

/-- Arithmetic mean of a series, as the spec words it. -/
def mean (l : List ℝ) : ℝ := l.sum / l.length

/-- Sum of squared deviations from the mean (the spec's
sum-of-squared-deviations form shared by volatility and efficiency). -/
def sumSqDev (l : List ℝ) : ℝ :=
  (l.map (fun x => (x - mean l) * (x - mean l))).sum

/-- Population standard deviation as the spec words it: mean, then mean
of squared deviations from the mean, then square root. -/
def specStdDev (l : List ℝ) : ℝ := Real.sqrt (sumSqDev l / l.length)

/-- Covariance over two series as the spec words it. -/
def specCovariance (a b : List ℝ) : ℝ :=
  (List.zipWith (fun x y => (x - mean a) * (y - mean b)) a b).sum / a.length

/-- Pearson correlation coefficient as the spec words it: covariance
normalized by the product of the two standard deviations. -/
def specPearson (a b : List ℝ) : ℝ :=
  specCovariance a b / (specStdDev a * specStdDev b)

end

/-! ## Claim C6: moving average -/

/-- Claim C6: for a non-empty series and period at least 1,
calculateMovingAverage returns the mean of the whole series when the
series is shorter than the period, and the mean of the trailing
period-element window otherwise; in particular the two boundary
examples of the spec hold. -/
theorem movingAverage_spec (l : List ℝ) (p : ℕ) (hl : l ≠ []) (hp : 1 ≤ p) :
    (l.length < p → calculateMovingAverage l p = mean l) ∧
    (p ≤ l.length → calculateMovingAverage l p = mean (l.drop (l.length - p))) ∧
    calculateMovingAverage [10, 20, 30] 7 = 20 ∧
    calculateMovingAverage [1, 2, 3, 4, 5, 6, 7, 8, 9, 10] 3 = 9 := by
  refine ⟨fun h => ?_, fun h => ?_, ?_, ?_⟩
  · rw [calculateMovingAverage, if_pos h, mean]
  · rw [calculateMovingAverage, if_neg (not_lt.mpr h), mean, List.length_drop,
      Nat.sub_sub_self h]
  · norm_num [calculateMovingAverage]
  · norm_num [calculateMovingAverage]

/-- Witness for C6 at the spec's boundary example. -/
theorem movingAverage_spec_witness :
    ([10, 20, 30] : List ℝ) ≠ [] ∧ 1 ≤ 7 ∧
    calculateMovingAverage [10, 20, 30] 7 = mean [10, 20, 30] :=
  ⟨by simp, by norm_num,
    (movingAverage_spec [10, 20, 30] 7 (by simp) (by norm_num)).1 (by norm_num)⟩

/-! ## Claim C7: volatility -/

/-- Claim C7: calculateVolatility is the population standard deviation
(in the spec's mean / squared-deviations / square-root form) for series
of length at least 2, is 0 for shorter series, and takes the three
concrete values the spec lists. -/
theorem volatility_spec (l : List ℝ) :
    (2 ≤ l.length → calculateVolatility l = specStdDev l) ∧
    (l.length < 2 → calculateVolatility l = 0) ∧
    calculateVolatility [100, 100, 100] = 0 ∧
    calculateVolatility ([] : List ℝ) = 0 ∧
    calculateVolatility [10, 20] = 5 := by
  have hform : ∀ m : List ℝ, 2 ≤ m.length → calculateVolatility m = specStdDev m := by
    intro m hm
    rw [calculateVolatility, if_neg (not_lt.mpr hm)]
    simp only [pow_two]
    rfl
  refine ⟨hform l, fun h => ?_, ?_, ?_, ?_⟩
  · rw [calculateVolatility, if_pos h]
  · rw [hform [100, 100, 100] (by norm_num)]
    have : sumSqDev [100, 100, 100] = 0 := by norm_num [sumSqDev, mean]
    rw [specStdDev, this]
    norm_num [Real.sqrt_zero]
  · rw [calculateVolatility, if_pos (by norm_num)]
  · rw [hform [10, 20] (by norm_num)]
    have h1 : sumSqDev [10, 20] = 50 := by norm_num [sumSqDev, mean]
    rw [specStdDev, h1]
    rw [show (50 : ℝ) / (([10, 20] : List ℝ).length : ℝ) = 5 ^ 2 by norm_num]
    exact Real.sqrt_sq (by norm_num)

/-- Witness for C7 at the two-element example. -/
theorem volatility_spec_witness :
    2 ≤ ([10, 20] : List ℝ).length ∧
    calculateVolatility [10, 20] = specStdDev [10, 20] :=
  ⟨by norm_num, (volatility_spec [10, 20]).1 (by norm_num)⟩

/-! ## Rounding helper lemmas -/

/-- jsRound is monotone. -/
theorem jsRound_mono {x y : ℝ} (h : x ≤ y) : jsRound x ≤ jsRound y := by
  unfold jsRound
  exact_mod_cast Int.floor_le_floor (by linarith)

/-- jsRound of an integer value is that value. -/
theorem jsRound_int (n : ℤ) : jsRound (n : ℝ) = n := by
  unfold jsRound
  norm_num [Int.floor_eq_iff]

/-- jsRound does not exceed its argument plus one half. -/
theorem jsRound_le (x : ℝ) : jsRound x ≤ x + 1/2 := by
  unfold jsRound
  exact_mod_cast Int.floor_le (x + 1/2)

/-- jsRound exceeds its argument minus one half. -/
theorem lt_jsRound (x : ℝ) : x - 1/2 < jsRound x := by
  unfold jsRound
  linarith [Int.lt_floor_add_one (x + 1/2)]

/-! ## Claim C2: direction of the historical trend factor -/

/-- Claim C2 (evaluation of the code at the disputed inputs): the trend
factor is exactly 1 for today (i = 0) and 1.029 for the oldest day
(i = 29), so it decreases -- not increases -- as the day approaches
today, and older days are scaled above 1.0, not below. -/
theorem trendFactor_direction :
    trendFactor 0 = 1 ∧ trendFactor 29 = 1.029 ∧ trendFactor 0 < trendFactor 29 := by
  norm_num [trendFactor]

/-! ## Claim C5: percent change at base price zero -/

/-- Claim C5 counterexample: at price 100 and base price 0 the change
computation yields positive infinity, not the value 0 the claim
demands. -/
theorem change_zero_base_counterexample :
    calculatePriceChange 100 0 = JSNum.posInf ∧
    calculatePriceChange 100 0 ≠ JSNum.val 0 := by
  rw [calculatePriceChange, if_pos rfl, if_pos (by norm_num)]
  exact ⟨rfl, fun hc => JSNum.noConfusion hc⟩

/-- Claim C5 amended: with base price 0 the computation raises no error
and returns a defined JavaScript value, but that value is a signed
infinity (or NaN at price 0), never the finite 0. -/
theorem change_zero_base_amended (p : ℝ) :
    calculatePriceChange p 0 ≠ JSNum.val 0 ∧
    (0 < p → calculatePriceChange p 0 = JSNum.posInf) ∧
    (p < 0 → calculatePriceChange p 0 = JSNum.negInf) ∧
    (p = 0 → calculatePriceChange p 0 = JSNum.nan) := by
  rw [calculatePriceChange, if_pos rfl]
  refine ⟨?_, fun h => ?_, fun h => ?_, fun h => ?_⟩
  · rcases lt_trichotomy p 0 with h | h | h
    · rw [if_neg (by linarith), if_pos h]
      exact fun hc => JSNum.noConfusion hc
    · rw [if_neg (by simp [h]), if_neg (by simp [h])]
      exact fun hc => JSNum.noConfusion hc
    · rw [if_pos h]
      exact fun hc => JSNum.noConfusion hc
  · rw [if_pos h]
  · rw [if_neg (by linarith), if_pos h]
  · rw [if_neg (by simp [h]), if_neg (by simp [h])]

/-- Witness for the amended C5 at price 100. -/
theorem change_zero_base_amended_witness :
    (0 : ℝ) < 100 ∧ calculatePriceChange 100 0 = JSNum.posInf :=
  ⟨by norm_num, (change_zero_base_amended 100).2.1 (by norm_num)⟩

/-! ## Claim C1: efficiency on a constant series -/

/-- Claim C1 (evaluation of the code at the spec's example): on the
zero-variance pair ([5,5,5],[1,2,3]) the efficiency computation divides
0 by 0 and returns NaN, not the 0 the claim requires. -/
theorem efficiency_constant_series_nan :
    calculateMarketEfficiency [5, 5, 5] [1, 2, 3] = JSNum.nan := by
  rw [calculateMarketEfficiency, if_neg (by norm_num)]
  norm_num [jsDiv, jsAbs]

/-! ## Claim C9: shape of the historical series -/

/-- Claim C9: for every draw stream and every value of today, the
historical series has exactly 30 points, the dates are the 30
consecutive days ending at today, each consecutive pair of points is one
day apart, and the last point's date is today. -/
theorem history_shape (s : ℕ → ℝ) (t : ℤ) :
    (generateHistoricalData s t).length = 30 ∧
    (generateHistoricalData s t).map PriceData.date
      = (List.range 30).map (fun k : ℕ => t - 29 + (k : ℤ)) ∧
    List.Chain' (fun p q => p.date + 1 = q.date) (generateHistoricalData s t) ∧
    ((generateHistoricalData s t).getLast?).map PriceData.date = some t := by
  refine ⟨?_, ?_, ?_, ?_⟩
  · simp [generateHistoricalData]
  · rw [generateHistoricalData, List.map_map]
    refine List.map_congr_left ?_
    intro k hk
    rw [List.mem_range] at hk
    simp only [Function.comp_apply, historicalPoint]
    have hcast : ((29 - k : ℕ) : ℤ) = 29 - (k : ℤ) := by
      push_cast [Nat.cast_sub (by omega : k ≤ 29)]
      ring
    rw [hcast]
    ring
  · rw [generateHistoricalData, List.chain'_map]
    refine (List.chain'_range_succ _ 29).mpr ?_
    intro m hm
    simp only [historicalPoint]
    omega
  · rw [generateHistoricalData, show (30 : ℕ) = 29 + 1 from rfl, List.range_succ,
      List.map_append, List.map_cons, List.map_nil, List.getLast?_concat]
    simp [historicalPoint]

/-! ## Sign lemmas for jsRound -/

/-- A positive rounded value forces the argument to be at least 1/2. -/
theorem jsRound_pos {x : ℝ} (h : 0 < jsRound x) : 1/2 ≤ x := by
  rw [jsRound] at h
  have h1 : 0 < ⌊x + 1/2⌋ := by exact_mod_cast h
  have h2 : (1 : ℤ) ≤ ⌊x + 1/2⌋ := h1
  have h3 : ((1 : ℤ) : ℝ) ≤ x + 1/2 := Int.le_floor.mp h2
  push_cast at h3
  linarith

/-- A negative rounded value forces the argument below -1/2. -/
theorem jsRound_neg {x : ℝ} (h : jsRound x < 0) : x < -(1/2) := by
  rw [jsRound] at h
  have h1 : ⌊x + 1/2⌋ < 0 := by exact_mod_cast h
  have h2 : x + 1/2 < ((0 : ℤ) : ℝ) := Int.floor_lt.mp h1
  push_cast at h2
  linarith

/-- Rounding a nonnegative value is nonnegative. -/
theorem jsRound_nonneg {x : ℝ} (h : 0 ≤ x) : 0 ≤ jsRound x := by
  rw [jsRound]
  have h1 : 0 ≤ ⌊x + 1/2⌋ := Int.floor_nonneg.mpr (by linarith)
  exact_mod_cast h1

/-- Rounding a value below 1/2 is nonpositive. -/
theorem jsRound_nonpos {x : ℝ} (h : x < 1/2) : jsRound x ≤ 0 := by
  rw [jsRound]
  have h1 : ⌊x + 1/2⌋ < 1 := Int.floor_lt.mpr (by push_cast; linarith)
  have h2 : ⌊x + 1/2⌋ ≤ 0 := by omega
  exact_mod_cast h2

/-! ## Claim C4: sign consistency of the rounded percent change -/

/-- Looks up the base-price table row for a city, as the source's
BASE_PRICES.commodity.city projections do. -/
def cityPrice (cp : CityPrices) : City → ℝ
  | City.nairobi => cp.nairobi
  | City.mombasa => cp.mombasa

/-- Sign agreement between a price, its rounded percent change, and the
base price, weakened to what one-decimal rounding preserves: exact zero
at the base price, and the change never takes the sign opposite to the
price deviation (but a deviation under 0.05% of base rounds to zero). -/
def signConsistentUpToRounding (price base : ℝ) (change : JSNum) : Prop :=
  (price = base → change = JSNum.val 0) ∧
  ∀ c : ℝ, change = JSNum.val c →
    (0 < c → base < price) ∧ (c < 0 → price < base) ∧
    (base < price → 0 ≤ c) ∧ (price < base → c ≤ 0)

/-- The percent-change computation satisfies the rounding-weakened sign
agreement for every positive base price. -/
theorem change_sign_of_pos_base (p b : ℝ) (hb : 0 < b) :
    signConsistentUpToRounding p b (calculatePriceChange p b) := by
  have hb0 : b ≠ 0 := ne_of_gt hb
  unfold signConsistentUpToRounding
  rw [calculatePriceChange, if_neg hb0]
  constructor
  · intro hpe
    rw [hpe, sub_self, zero_div, zero_mul, zero_mul]
    rw [show jsRound 0 = 0 from by norm_num [jsRound, Int.floor_eq_iff]]
    norm_num
  · intro c hc
    rw [JSNum.val.injEq] at hc
    set q := ((p - b) / b) * 100 * 10 with hqdef
    have hq1000 : q = (p - b) / b * 1000 := by rw [hqdef]; ring
    refine ⟨fun hcpos => ?_, fun hcneg => ?_, fun hblt => ?_, fun hplt => ?_⟩
    · have h1 : 0 < jsRound q := by rw [← hc] at hcpos; linarith
      have h2 := jsRound_pos h1
      rw [hq1000] at h2
      have h3 : 0 < (p - b) / b := by linarith
      have h4 : 0 < p - b := by
        have h5 := mul_pos h3 hb
        rwa [div_mul_cancel₀ _ hb0] at h5
      linarith
    · have h1 : jsRound q < 0 := by rw [← hc] at hcneg; linarith
      have h2 := jsRound_neg h1
      rw [hq1000] at h2
      have h3 : (p - b) / b < 0 := by linarith
      have h4 : p - b < 0 := by
        have h5 := mul_neg_of_neg_of_pos h3 hb
        rwa [div_mul_cancel₀ _ hb0] at h5
      linarith
    · have h3 : 0 < (p - b) / b := div_pos (by linarith) hb
      have h1 : 0 ≤ jsRound q := jsRound_nonneg (by rw [hq1000]; nlinarith)
      rw [← hc]
      linarith
    · have h3 : (p - b) / b < 0 := div_neg_of_neg_of_pos (by linarith) hb
      have h1 : jsRound q ≤ 0 := jsRound_nonpos (by rw [hq1000]; nlinarith)
      rw [← hc]
      linarith

/-- Claim C4 amended: for every draw stream and clock value, every
snapshot record's rounded change agrees in sign with the price deviation
from base up to one-decimal rounding: a change strictly positive
(negative) guarantees the price is above (below) base, a price equal to
base gives change exactly 0, and the change never has the sign opposite
to the deviation; the exact biconditional fails only in that a tiny
nonzero deviation rounds to change 0. -/
theorem change_sign_amended (s : ℕ → ℝ) (t : ℤ) :
    (generateMarketData s t).Forall (fun rec =>
      signConsistentUpToRounding rec.maizePrice (cityPrice BASE_PRICES.maize rec.city) rec.maizeChange ∧
      signConsistentUpToRounding rec.beansPrice (cityPrice BASE_PRICES.beans rec.city) rec.beansChange) := by
  refine List.forall_iff_forall_mem.mpr ?_
  intro rec hrec
  simp only [generateMarketData, List.mem_cons, List.not_mem_nil, or_false] at hrec
  rcases hrec with h | h <;> subst h <;> constructor <;>
    exact change_sign_of_pos_base _ _ (by norm_num [BASE_PRICES, cityPrice])

/-- Draw stream for the C4 counterexample: the first draw is
exp(-1/911250), every other draw is 1/2.  All values lie in (0, 1). -/
noncomputable def drawsC4 : ℕ → ℝ := fun n => if n = 0 then Real.exp (-(1/911250 : ℝ)) else 1/2

/-- Claim C4 counterexample: with the draw stream drawsC4 the first
snapshot record has maize price 4499, strictly below the base 4500, yet
its rounded maize change is exactly 0 -- refuting the biconditional
(change < 0 iff price < base) the claim asserts. -/
theorem change_sign_counterexample :
    ((generateMarketData drawsC4 0).map (fun rec => (rec.maizePrice, rec.maizeChange))).head?
      = some (4499, JSNum.val 0) ∧ (4499 : ℝ) < BASE_PRICES.maize.nairobi := by
  have hfluct : generatePriceFluctuation BASE_PRICES.maize.nairobi VOLATILITY.maize
      (drawsC4 0) (drawsC4 1) = 4499 := by
    show max (BASE_PRICES.maize.nairobi +
        Real.sqrt (-2 * Real.log (drawsC4 0)) * Real.cos (2 * Real.pi * drawsC4 1) *
          VOLATILITY.maize * BASE_PRICES.maize.nairobi)
      (BASE_PRICES.maize.nairobi * 0.5) = 4499
    rw [show drawsC4 0 = Real.exp (-(1/911250 : ℝ)) from rfl,
        show drawsC4 1 = (1/2 : ℝ) from by norm_num [drawsC4],
        Real.log_exp,
        show 2 * Real.pi * (1/2 : ℝ) = Real.pi from by ring, Real.cos_pi,
        show -2 * -(1/911250 : ℝ) = ((1/675 : ℝ))^2 from by norm_num,
        Real.sqrt_sq (by norm_num : (0:ℝ) ≤ 1/675)]
    rw [show BASE_PRICES.maize.nairobi + 1/675 * (-1) * VOLATILITY.maize * BASE_PRICES.maize.nairobi
          = (4499 : ℝ) from by norm_num [BASE_PRICES, VOLATILITY],
        show BASE_PRICES.maize.nairobi * 0.5 = (2250 : ℝ) from by norm_num [BASE_PRICES]]
    exact max_eq_left (by norm_num)
  have hprice : jsRound (generatePriceFluctuation BASE_PRICES.maize.nairobi VOLATILITY.maize
      (drawsC4 0) (drawsC4 1)) = 4499 := by
    rw [hfluct]
    norm_num [jsRound, Int.floor_eq_iff]
  have hchange : calculatePriceChange (4499 : ℝ) BASE_PRICES.maize.nairobi = JSNum.val 0 := by
    rw [calculatePriceChange, if_neg (by norm_num [BASE_PRICES])]
    rw [show (((4499 : ℝ) - BASE_PRICES.maize.nairobi) / BASE_PRICES.maize.nairobi) * 100 * 10
          = -(2/9 : ℝ) from by norm_num [BASE_PRICES]]
    rw [show jsRound (-(2/9 : ℝ)) = 0 from by norm_num [jsRound, Int.floor_eq_iff]]
    norm_num
  constructor
  · simp only [generateMarketData, List.map_cons, List.head?_cons]
    rw [hprice, hchange]
  · norm_num [BASE_PRICES]

/-! ## Claim C3: the 50%-of-base floor -/

/-- The fluctuation routine never returns less than half the base it was
handed, so rounding cannot take the result below an integer half-base. -/
theorem half_base_le_rounded_fluctuation (base vol u1 u2 : ℝ) (n : ℤ)
    (hn : (n : ℝ) = base * 0.5) :
    base * 0.5 ≤ jsRound (generatePriceFluctuation base vol u1 u2) := by
  have hfloor : base * 0.5 ≤ generatePriceFluctuation base vol u1 u2 :=
    le_max_right _ _
  have h1 : jsRound (base * 0.5) ≤ jsRound (generatePriceFluctuation base vol u1 u2) :=
    jsRound_mono hfloor
  rw [← hn] at h1 ⊢
  rwa [jsRound_int] at h1

/-- For an arbitrary (possibly fractional) base, the rounded fluctuation
still exceeds half the base minus the half-unit rounding slack. -/
theorem half_base_sub_half_lt_rounded_fluctuation (base vol u1 u2 : ℝ) :
    base * 0.5 - 1/2 < jsRound (generatePriceFluctuation base vol u1 u2) := by
  have hfloor : base * 0.5 ≤ generatePriceFluctuation base vol u1 u2 :=
    le_max_right _ _
  have h1 := lt_jsRound (base * 0.5)
  have h2 : jsRound (base * 0.5) ≤ jsRound (generatePriceFluctuation base vol u1 u2) :=
    jsRound_mono hfloor
  linarith

/-- Claim C3 amended: snapshot prices always respect the floor of half
the constant base-price table entry; historical prices respect the floor
only relative to the trend- and seasonally-adjusted base of their day
(up to the half-unit rounding slack), and that adjusted base can fall
below the table entry. -/
theorem floor_invariant_amended (s : ℕ → ℝ) (t : ℤ) :
    (generateMarketData s t).Forall (fun rec =>
      cityPrice BASE_PRICES.maize rec.city * 0.5 ≤ rec.maizePrice ∧
      cityPrice BASE_PRICES.beans rec.city * 0.5 ≤ rec.beansPrice) ∧
    (List.range 30).Forall (fun k =>
      BASE_PRICES.maize.nairobi * trendFactor (29 - k) * seasonalFactor (29 - k) * 0.5 - 1/2
          < (historicalPoint s t k).nairobiMaize ∧
      BASE_PRICES.beans.nairobi * trendFactor (29 - k) * seasonalFactor (29 - k) * 0.5 - 1/2
          < (historicalPoint s t k).nairobiBeans ∧
      BASE_PRICES.maize.mombasa * trendFactor (29 - k) * seasonalFactor (29 - k) * 0.5 - 1/2
          < (historicalPoint s t k).mombasaMaize ∧
      BASE_PRICES.beans.mombasa * trendFactor (29 - k) * seasonalFactor (29 - k) * 0.5 - 1/2
          < (historicalPoint s t k).mombasaBeans) := by
  constructor
  · refine List.forall_iff_forall_mem.mpr ?_
    intro rec hrec
    simp only [generateMarketData, List.mem_cons, List.not_mem_nil, or_false] at hrec
    rcases hrec with h | h <;> subst h <;> constructor
    · exact half_base_le_rounded_fluctuation _ _ _ _ 2250 (by norm_num [BASE_PRICES, cityPrice])
    · exact half_base_le_rounded_fluctuation _ _ _ _ 4250 (by norm_num [BASE_PRICES, cityPrice])
    · exact half_base_le_rounded_fluctuation _ _ _ _ 2100 (by norm_num [BASE_PRICES, cityPrice])
    · exact half_base_le_rounded_fluctuation _ _ _ _ 4100 (by norm_num [BASE_PRICES, cityPrice])
  · refine List.forall_iff_forall_mem.mpr ?_
    intro k hk
    refine ⟨?_, ?_, ?_, ?_⟩ <;>
      exact half_base_sub_half_lt_rounded_fluctuation _ _ _ _

/-- Draw stream for the C3 counterexample: draw 72 (the first draw of
the day-index-20 point's Nairobi maize price) is exp(-50), every other
draw is 1/2.  All values lie in (0, 1). -/
noncomputable def drawsC3 : ℕ → ℝ := fun n => if n = 72 then Real.exp (-50 : ℝ) else 1/2

/-- Claim C3 counterexample: with the valid draw stream drawsC3, the
historical point for day index i = 20 (list position 9) has a Nairobi
maize price strictly below half the constant base price 4500 -- the
seasonal dip takes the adjusted base below the table base, and the
clamp only enforces half the adjusted base. -/
theorem floor_invariant_counterexample :
    historicalPoint drawsC3 0 9 ∈ generateHistoricalData drawsC3 0 ∧
    0 < drawsC3 72 ∧ drawsC3 72 < 1 ∧ 0 < drawsC3 73 ∧ drawsC3 73 < 1 ∧
    (historicalPoint drawsC3 0 9).nairobiMaize < BASE_PRICES.maize.nairobi * 0.5 := by
  have h3a : Real.sqrt 3 < 2 := by
    have h4 : Real.sqrt 4 = 2 := by
      rw [show (4 : ℝ) = 2^2 from by norm_num]
      exact Real.sqrt_sq (by norm_num)
    calc Real.sqrt 3 < Real.sqrt 4 := Real.sqrt_lt_sqrt (by norm_num) (by norm_num)
    _ = 2 := h4
  have h3b : 1 < Real.sqrt 3 := (Real.lt_sqrt (by norm_num)).mpr (by norm_num)
  have hseason : seasonalFactor 20 = 1 - Real.sqrt 3 / 2 * 0.05 := by
    rw [seasonalFactor,
        show ((20 : ℕ) : ℝ) / 30 * Real.pi * 2 = Real.pi / 3 + Real.pi from by push_cast; ring,
        Real.sin_add_pi, Real.sin_pi_div_three]
    ring
  have htrend : trendFactor 20 = 1.02 := by norm_num [trendFactor]
  have hB : 0 ≤ BASE_PRICES.maize.nairobi * trendFactor 20 * seasonalFactor 20 := by
    rw [htrend, hseason]
    norm_num [BASE_PRICES]
    nlinarith
  have hpoint : (historicalPoint drawsC3 0 9).nairobiMaize
      = jsRound (generatePriceFluctuation
          (BASE_PRICES.maize.nairobi * trendFactor 20 * seasonalFactor 20)
          (VOLATILITY.maize * 0.5) (drawsC3 72) (drawsC3 73)) := rfl
  have hfl : generatePriceFluctuation
      (BASE_PRICES.maize.nairobi * trendFactor 20 * seasonalFactor 20)
      (VOLATILITY.maize * 0.5) (drawsC3 72) (drawsC3 73)
      = (BASE_PRICES.maize.nairobi * trendFactor 20 * seasonalFactor 20) * 0.5 := by
    show max (BASE_PRICES.maize.nairobi * trendFactor 20 * seasonalFactor 20 +
        Real.sqrt (-2 * Real.log (drawsC3 72)) * Real.cos (2 * Real.pi * drawsC3 73) *
          (VOLATILITY.maize * 0.5) * (BASE_PRICES.maize.nairobi * trendFactor 20 * seasonalFactor 20))
      ((BASE_PRICES.maize.nairobi * trendFactor 20 * seasonalFactor 20) * 0.5) = _
    rw [show drawsC3 72 = Real.exp (-50 : ℝ) from rfl,
        show drawsC3 73 = (1/2 : ℝ) from by norm_num [drawsC3],
        Real.log_exp,
        show 2 * Real.pi * (1/2 : ℝ) = Real.pi from by ring, Real.cos_pi,
        show (-2 : ℝ) * -50 = ((10 : ℝ))^2 from by norm_num,
        Real.sqrt_sq (by norm_num : (0:ℝ) ≤ 10)]
    apply max_eq_right
    have hv : VOLATILITY.maize * (0.5 : ℝ) = 0.075 := by norm_num [VOLATILITY]
    rw [hv]
    nlinarith [hB]
  refine ⟨?_, ?_, ?_, ?_, ?_, ?_⟩
  · exact List.mem_map_of_mem _ (List.mem_range.mpr (by norm_num))
  · rw [show drawsC3 72 = Real.exp (-50 : ℝ) from rfl]
    exact Real.exp_pos _
  · rw [show drawsC3 72 = Real.exp (-50 : ℝ) from rfl]
    exact Real.exp_lt_one_iff.mpr (by norm_num)
  · norm_num [drawsC3]
  · norm_num [drawsC3]
  · rw [hpoint, hfl]
    have hle := jsRound_le ((BASE_PRICES.maize.nairobi * trendFactor 20 * seasonalFactor 20) * 0.5)
    have hlt : (BASE_PRICES.maize.nairobi * trendFactor 20 * seasonalFactor 20) * 0.5 + 1/2
        < BASE_PRICES.maize.nairobi * 0.5 := by
      rw [htrend, hseason]
      norm_num [BASE_PRICES]
      nlinarith [h3b]
    linarith

/-! ## Sum bridges and Cauchy-Schwarz for the efficiency claims -/

/-- A zipWith sum over equal-length lists as an indexed finite sum. -/
theorem zipWith_sum_range (f : ℝ → ℝ → ℝ) :
    ∀ (a b : List ℝ), a.length = b.length →
      (List.zipWith f a b).sum = ∑ i ∈ Finset.range a.length, f (a.getD i 0) (b.getD i 0)
  | [], [], _ => by simp
  | [], _ :: _, h => by simp at h
  | _ :: _, [], h => by simp at h
  | x :: a, y :: b, h => by
    simp only [List.zipWith_cons_cons, List.sum_cons, List.length_cons]
    rw [Finset.sum_range_succ']
    simp only [List.getD_cons_succ, List.getD_cons_zero]
    rw [zipWith_sum_range f a b (by simpa using h)]
    ring

/-- A mapped sum as an indexed finite sum. -/
theorem map_sum_range (f : ℝ → ℝ) :
    ∀ a : List ℝ, (a.map f).sum = ∑ i ∈ Finset.range a.length, f (a.getD i 0)
  | [] => by simp
  | x :: a => by
    simp only [List.map_cons, List.sum_cons, List.length_cons]
    rw [Finset.sum_range_succ']
    simp only [List.getD_cons_succ, List.getD_cons_zero]
    rw [map_sum_range f a]
    ring

/-- Cauchy-Schwarz for the centred sums appearing in the efficiency
computation: the squared cross sum is bounded by the product of the two
sums of squared deviations. -/
theorem centred_cauchy_schwarz (a b : List ℝ) (m1 m2 : ℝ) (h : a.length = b.length) :
    ((List.zipWith (fun x y => (x - m1) * (y - m2)) a b).sum) ^ 2
      ≤ (a.map (fun x => (x - m1) * (x - m1))).sum * (b.map (fun y => (y - m2) * (y - m2))).sum := by
  rw [zipWith_sum_range _ a b h, map_sum_range, map_sum_range, h]
  simp only [← pow_two]
  exact Finset.sum_mul_sq_le_sq_mul_sq _ _ _

/-- A sum of squared deviations is nonnegative. -/
theorem sumSqDev_nonneg (l : List ℝ) : 0 ≤ sumSqDev l := by
  rw [sumSqDev]
  apply List.sum_nonneg
  intro x hx
  rw [List.mem_map] at hx
  obtain ⟨y, hy, hxy⟩ := hx
  rw [← hxy]
  exact mul_self_nonneg _

/-- Unfolding equation for sumSqDev. -/
theorem sumSqDev_eq (l : List ℝ) :
    sumSqDev l = (l.map (fun x => (x - mean l) * (x - mean l))).sum := rfl

/-- On equal-length inputs of length at least two, the efficiency
computation reaches its correlation expression, with the shared mean
denominators aligned. -/
theorem efficiency_body (a b : List ℝ) (hlen : a.length = b.length) (h2 : 2 ≤ a.length) :
    calculateMarketEfficiency a b
      = jsAbs (jsDiv ((List.zipWith (fun x y => (x - mean a) * (y - mean b)) a b).sum)
          (Real.sqrt (sumSqDev a * sumSqDev b))) := by
  rw [calculateMarketEfficiency, if_neg (by push_neg; exact ⟨hlen, h2⟩)]
  show jsAbs (jsDiv
      ((List.zipWith (fun x y => (x - a.sum / (a.length : ℝ)) * (y - b.sum / (a.length : ℝ))) a b).sum)
      (Real.sqrt ((a.map (fun x => (x - a.sum / (a.length : ℝ)) * (x - a.sum / (a.length : ℝ)))).sum
        * (b.map (fun y => (y - b.sum / (a.length : ℝ)) * (y - b.sum / (a.length : ℝ)))).sum))) = _
  rw [show b.sum / (a.length : ℝ) = mean b from by rw [mean, hlen],
      show a.sum / (a.length : ℝ) = mean a from rfl]
  rfl

/-! ## Claim C8: efficiency is the absolute Pearson correlation -/

/-- Claim C8: the efficiency computation returns 0 on length mismatch or
length below 2; on equal-length series of length at least 2 with nonzero
variance on both sides it returns the absolute Pearson correlation, a
value in [0, 1]; and the spec's two concrete examples hold. -/
theorem efficiency_spec :
    (∀ a b : List ℝ, a.length ≠ b.length ∨ a.length < 2 →
        calculateMarketEfficiency a b = JSNum.val 0) ∧
    (∀ a b : List ℝ, a.length = b.length → 2 ≤ a.length →
        sumSqDev a ≠ 0 → sumSqDev b ≠ 0 →
        calculateMarketEfficiency a b = JSNum.val |specPearson a b| ∧
        0 ≤ |specPearson a b| ∧ |specPearson a b| ≤ 1) ∧
    calculateMarketEfficiency [1, 2, 3] [2, 4, 6] = JSNum.val 1 ∧
    calculateMarketEfficiency [1, 2] [1, 2, 3] = JSNum.val 0 := by
  have hmain : ∀ a b : List ℝ, a.length = b.length → 2 ≤ a.length →
      sumSqDev a ≠ 0 → sumSqDev b ≠ 0 →
      calculateMarketEfficiency a b = JSNum.val |specPearson a b| ∧
      0 ≤ |specPearson a b| ∧ |specPearson a b| ≤ 1 := by
    intro a b hlen h2 ha hb
    have hD1 : 0 < sumSqDev a := lt_of_le_of_ne (sumSqDev_nonneg a) (Ne.symm ha)
    have hD2 : 0 < sumSqDev b := lt_of_le_of_ne (sumSqDev_nonneg b) (Ne.symm hb)
    have hS : 0 < Real.sqrt (sumSqDev a * sumSqDev b) :=
      Real.sqrt_pos.mpr (mul_pos hD1 hD2)
    have hn : (0 : ℝ) < (a.length : ℝ) := by
      have hpos : 0 < a.length := by omega
      exact_mod_cast hpos
    have hpearson : specPearson a b
        = (List.zipWith (fun x y => (x - mean a) * (y - mean b)) a b).sum
          / Real.sqrt (sumSqDev a * sumSqDev b) := by
      rw [specPearson, specCovariance, specStdDev, specStdDev,
          show (b.length : ℝ) = (a.length : ℝ) from by rw [hlen],
          Real.sqrt_div (sumSqDev_nonneg a), Real.sqrt_div (sumSqDev_nonneg b),
          div_mul_div_comm, Real.mul_self_sqrt (le_of_lt hn),
          Real.sqrt_mul (sumSqDev_nonneg a),
          div_div_div_comm, div_self (ne_of_gt hn), div_one]
    have habs : |(List.zipWith (fun x y => (x - mean a) * (y - mean b)) a b).sum|
        ≤ Real.sqrt (sumSqDev a * sumSqDev b) := by
      have hCS : ((List.zipWith (fun x y => (x - mean a) * (y - mean b)) a b).sum) ^ 2
          ≤ sumSqDev a * sumSqDev b := by
        rw [sumSqDev_eq, sumSqDev_eq]
        exact centred_cauchy_schwarz a b (mean a) (mean b) hlen
      calc |(List.zipWith (fun x y => (x - mean a) * (y - mean b)) a b).sum|
          = Real.sqrt (((List.zipWith (fun x y => (x - mean a) * (y - mean b)) a b).sum) ^ 2) :=
            (Real.sqrt_sq_eq_abs _).symm
      _ ≤ Real.sqrt (sumSqDev a * sumSqDev b) := Real.sqrt_le_sqrt hCS
    refine ⟨?_, abs_nonneg _, ?_⟩
    · rw [efficiency_body a b hlen h2, hpearson, jsDiv, if_neg (ne_of_gt hS)]
      rfl
    · rw [hpearson, abs_div, abs_of_pos hS]
      exact (div_le_one hS).mpr habs
  refine ⟨fun a b h => ?_, hmain, ?_, ?_⟩
  · rw [calculateMarketEfficiency, if_pos h]
  · rw [efficiency_body [1, 2, 3] [2, 4, 6] rfl (by norm_num),
        show (List.zipWith (fun x y => (x - mean [1, 2, 3]) * (y - mean [2, 4, 6]))
            [1, 2, 3] [2, 4, 6]).sum = (4 : ℝ) from by norm_num [mean],
        show sumSqDev [1, 2, 3] = (2 : ℝ) from by norm_num [sumSqDev, mean],
        show sumSqDev [2, 4, 6] = (8 : ℝ) from by norm_num [sumSqDev, mean],
        show (2 : ℝ) * 8 = ((4 : ℝ)) ^ 2 from by norm_num,
        Real.sqrt_sq (by norm_num : (0:ℝ) ≤ 4),
        jsDiv, if_neg (by norm_num)]
    norm_num [jsAbs]
  · rw [calculateMarketEfficiency, if_pos (by norm_num)]

/-- Witness for C8 at the perfectly correlated example. -/
theorem efficiency_spec_witness :
    ([1, 2, 3] : List ℝ).length = ([2, 4, 6] : List ℝ).length ∧
    2 ≤ ([1, 2, 3] : List ℝ).length ∧
    sumSqDev [1, 2, 3] ≠ 0 ∧ sumSqDev [2, 4, 6] ≠ 0 ∧
    (calculateMarketEfficiency [1, 2, 3] [2, 4, 6]
        = JSNum.val |specPearson [1, 2, 3] [2, 4, 6]| ∧
      0 ≤ |specPearson [1, 2, 3] [2, 4, 6]| ∧ |specPearson [1, 2, 3] [2, 4, 6]| ≤ 1) :=
  ⟨rfl, by norm_num, by norm_num [sumSqDev, mean], by norm_num [sumSqDev, mean],
    efficiency_spec.2.1 [1, 2, 3] [2, 4, 6] rfl (by norm_num)
      (by norm_num [sumSqDev, mean]) (by norm_num [sumSqDev, mean])⟩

/-! ## Claim C10: symmetry of the efficiency computation -/

/-- Swapping the two lists of a zipWith sum while flipping the function's
arguments preserves the sum. -/
theorem zipWith_swap_sum (f : ℝ → ℝ → ℝ) :
    ∀ (a b : List ℝ), (List.zipWith f a b).sum = (List.zipWith (fun y x => f x y) b a).sum
  | [], b => by simp
  | _ :: _, [] => by simp
  | x :: a, y :: b => by
    simp only [List.zipWith_cons_cons, List.sum_cons]
    rw [zipWith_swap_sum f a b]

/-- Claim C10: the efficiency computation is symmetric in its two
arguments. -/
theorem efficiency_symm (a b : List ℝ) :
    calculateMarketEfficiency a b = calculateMarketEfficiency b a := by
  by_cases hlen : a.length = b.length
  · by_cases h2 : a.length < 2
    · rw [calculateMarketEfficiency, if_pos (Or.inr h2), calculateMarketEfficiency,
        if_pos (Or.inr (hlen ▸ h2))]
    · have h2a : 2 ≤ a.length := not_lt.mp h2
      rw [efficiency_body a b hlen h2a, efficiency_body b a hlen.symm (hlen ▸ h2a),
          mul_comm (sumSqDev b) (sumSqDev a), zipWith_swap_sum]
      have hfun : (fun y x => (x - mean a) * (y - mean b))
          = (fun x y => (x - mean b) * (y - mean a)) := by
        funext u v
        ring
      rw [hfun]
  · rw [calculateMarketEfficiency, if_pos (Or.inl hlen), calculateMarketEfficiency,
      if_pos (Or.inl (Ne.symm hlen))]
